import Mathlib

/-!
Verification of the galactus request fan-out and rate-limiting fabric.

The Go sources are shallowly embedded: the redis key/value store with
TTL is an association list of entries together with a logical clock
(one unit = one second); redis operations that can fail take an explicit
error flag; the discord REST calls, JSON marshalling and pub/sub ack
delivery are oracles passed as function arguments.
-/

namespace Galactus

/-- A stored value in the key/value store: an integer value and an
optional absolute expiry instant (none means the key is persistent). -/
structure Entry where
  value : Int
  expiry : Option Nat
deriving DecidableEq, Repr

/-- The key/value store with a logical clock, in seconds.  A key whose
expiry instant is ≤ `now` behaves as absent. -/
structure RState where
  now : Nat
  entries : List (String × Entry)
deriving DecidableEq, Repr

def emptyR : RState := { now := 0, entries := [] }

/-- Association-list lookup keyed by the first component. -/
def assoc {β : Type} (k : String) : List (String × β) → Option β
  | [] => none
  | p :: rest => if p.1 = k then some p.2 else assoc k rest

/-- Whether an entry is still live at instant `now`. -/
def entryAlive (now : Nat) (e : Entry) : Bool :=
  match e.expiry with
  | none => true
  | some t => now < t

/-- Lookup of a key that respects TTL: an expired entry is invisible. -/
def getLive (st : RState) (k : String) : Option Entry :=
  match assoc k st.entries with
  | some e => if entryAlive st.now e then some e else none
  | none => none

/-- Store an entry under a key, replacing any previous binding. -/
def setEntry (st : RState) (k : String) (e : Entry) : RState :=
  { st with entries := (k, e) :: st.entries.filter (fun p => p.1 ≠ k) }

/-- Redis INCR: increments the live value, preserving its TTL; a missing
or expired key is (re)created at value 1 with no TTL. -/
def rincr (st : RState) (k : String) : Int × RState :=
  match getLive st k with
  | some e => (e.value + 1, setEntry st k { value := e.value + 1, expiry := e.expiry })
  | none => (1, setEntry st k { value := 1, expiry := none })

/-- Redis EXPIRE: set the TTL of a live key to `ttl` seconds from now;
a no-op on a missing or expired key. -/
def rexpire (st : RState) (k : String) (ttl : Nat) : RState :=
  match getLive st k with
  | some e => setEntry st k { e with expiry := some (st.now + ttl) }
  | none => st

/-- Redis SET with expiration: store `v` under `k` with TTL `d`. -/
def rset (st : RState) (k : String) (v : Int) (d : Nat) : RState :=
  setEntry st k { value := v, expiry := some (st.now + d) }

/-- Let `t` seconds of wall-clock time pass. -/
def advance (st : RState) (t : Nat) : RState :=
  { st with now := st.now + t }

/-- The expiry instant of the live entry at `k`, if any. -/
def liveExpiry (st : RState) (k : String) : Option Nat :=
  match getLive st k with
  | some e => e.expiry
  | none => none

/-- The value of the live entry at `k`, if any. -/
def liveValue (st : RState) (k : String) : Option Int :=
  match getLive st k with
  | some e => some e.value
  | none => none

/-- Modelled from the spec: the key layout of the external `rediskey`
package, `guild:<guild>:token:<hashed>` (the admission counter). -/
def guildTokenLock (guildID hashToken : String) : String :=
  "guild:" ++ guildID ++ ":token:" ++ hashToken

/-- Modelled from the spec: `guild:<guild>:tokens`, the shared set of
hashed identities known to be members of the guild. -/
def guildTokensKey (guildID : String) : String :=
  "guild:" ++ guildID ++ ":tokens"

/-- Modelled from the spec: `task:<task_id>:complete`, the pub/sub topic
on which a capture task's completion is announced. -/
def completeTask (taskID : String) : String :=
  "task:" ++ taskID ++ ":complete"

/-- Modelled from the spec: `tasks:<connect_code>`, the per-connect-code
list of encoded capture tasks. -/
def tasksList (connectCode : String) : String :=
  "tasks:" ++ connectCode

/-- The admission check.  `R` is `galactus.maxRequests5Seconds`;
`incrErr` models the redis INCR call returning an error, in which case
the Go code only logs and leaves `i` at its zero value 0.  The
post-increment count `i` is usable iff `i < R`; a usable key gets its
TTL set to 5 seconds (errors of EXPIRE are only logged), an unusable
one is left untouched. -/
def IncrAndTestGuildTokenComboLock (R : Int) (incrErr : Bool)
    (guildID hashToken : String) (st : RState) : Bool × RState :=
  let k := guildTokenLock guildID hashToken
  let p := if incrErr then ((0 : Int), st) else rincr st k
  if p.1 < R then
    (true, rexpire p.2 k 5)
  else
    (false, p.2)

/-- Blacklisting: SET the admission counter to `R` with TTL `d`. -/
def BlacklistTokenForDuration (R : Int) (guildID hashToken : String)
    (d : Nat) (st : RState) : RState :=
  rset st (guildTokenLock guildID hashToken) R d


/-- A client-visible schedule against one admission key: either let time
pass or perform an admission check. -/
inductive AdmOp
  | advanceOp (t : Nat)
  | checkOp
deriving DecidableEq, Repr

/-- Run a schedule of checks and delays against the (guild, identity)
admission key, collecting the check results. -/
def runOps (R : Int) (g h : String) : List AdmOp → RState → List Bool × RState
  | [], st => ([], st)
  | AdmOp.advanceOp t :: rest, st => runOps R g h rest (advance st t)
  | AdmOp.checkOp :: rest, st =>
      let p := IncrAndTestGuildTokenComboLock R false g h st
      let q := runOps R g h rest p.2
      (p.1 :: q.1, q.2)

/-- Total wall-clock time consumed by a schedule. -/
def totalAdvance : List AdmOp → Nat
  | [] => 0
  | AdmOp.advanceOp t :: rest => t + totalAdvance rest
  | AdmOp.checkOp :: rest => totalAdvance rest

/-- The admission check at capacity R = 3 against guild "g" and hashed
identity "h" (the boundary scenario of the spec). -/
def adm3 (st : RState) : Bool × RState :=
  IncrAndTestGuildTokenComboLock 3 false "g" "h" st

def adm3s1 : Bool × RState := adm3 emptyR

def adm3s2 : Bool × RState := adm3 adm3s1.2

def adm3s3 : Bool × RState := adm3 adm3s2.2

def adm3s4 : Bool × RState := adm3 adm3s3.2

def adm3s5 : Bool × RState := adm3 (advance adm3s4.2 5)

/-- Dispatcher-side state: the redis store, the shared guild → hashed
identity sets, and the instance-local map from hashed token to live
session (a session is represented by an opaque string handle). -/
structure GState where
  redis : RState
  sets : List (String × List String)
  activeSessions : List (String × String)
deriving DecidableEq, Repr

/-- Redis SREM on the shared sets. -/
def srem (st : GState) (key member : String) : GState :=
  { st with sets :=
      st.sets.map (fun p => if p.1 = key then (p.1, p.2.filter (fun m => m ≠ member)) else p) }

/-- Redis SMEMBERS on the shared sets (an absent set is empty). -/
def smembers (st : GState) (key : String) : List String :=
  (assoc key st.sets).getD []

/-- The loop body of `getAnySession`: walk the hashed tokens with their
index `i`, stopping at `limit`; an admitted token with no local session
is removed from the guild token set and the walk continues. -/
def getAnySessionAux (R : Int) (guildID : String) (limit : Int) :
    Int → List String → GState → Option (String × String) × GState
  | _, [], st => (none, st)
  | i, hToken :: rest, st =>
    if i == limit then (none, st)
    else
      let p := IncrAndTestGuildTokenComboLock R false guildID hToken st.redis
      let st1 : GState := { st with redis := p.2 }
      if p.1 then
        match assoc hToken st1.activeSessions with
        | some sess => (some (sess, hToken), st1)
        | none =>
            getAnySessionAux R guildID limit (i + 1) rest
              (srem st1 (guildTokensKey guildID) hToken)
      else
        getAnySessionAux R guildID limit (i + 1) rest st1

/-- Walk up to `limit` of the guild's hashed tokens, returning the first
admitted one that has a live local session, together with that session. -/
def getAnySession (R : Int) (guildID : String) (tokens : List String)
    (limit : Int) (st : GState) : Option (String × String) × GState :=
  getAnySessionAux R guildID limit 0 tokens st

/-- The secondary-identity rung.  `tokens` is `nil` or a (possibly
empty) slice, as returned by `getAllTokensForGuild`; `restOk` is the
oracle for the outcome of `ApplyMuteDeaf` on a given session.  On a REST
failure the Go code logs and falls through to `return false`. -/
def attemptOnSecondaryTokens (R : Int) (guildID userID : String)
    (tokens : Option (List String)) (limit : Int) (restOk : String → Bool)
    (st : GState) : Bool × GState :=
  match tokens with
  | some toks =>
    if 0 < limit then
      match getAnySession R guildID toks limit st with
      | (some (sess, _hToken), st1) =>
          if restOk sess then (true, st1) else (false, st1)
      | (none, st1) => (false, st1)
    else (false, st)
  | none => (false, st)

/-- The first event observed by the ack wait: either the bounded timer
fires first, or a message with some payload arrives on the subscription. -/
inductive AckEvent
  | timeout
  | msg (payload : String)
deriving DecidableEq, Repr

/-- The ack wait: false when the timer fires first, otherwise true
exactly when the received payload is the string "true". -/
def waitForAck : AckEvent → Bool
  | AckEvent.timeout => false
  | AckEvent.msg p => p == "true"

/-- Externally visible effects of the capture rung, in program order. -/
inductive CaptureEffect
  | subscribeTo (topic : String)
  | pushTask (listKey : String)
  | blacklistKey (key : String)
deriving DecidableEq, Repr

/-- The blacklist duration applied to an unresponsive capture client:
five minutes. -/
def UnresponsiveCaptureBlacklistDuration : Nat := 300

/-- The capture rung: admission-check the connect code, subscribe to the
task completion topic, push the task, then wait for the ack; on no ack,
blacklist the connect code for five minutes.  `pushErr` models
`PushCaptureClientTask` failing (logged, no wait happens); `ackEv` is
the ack-wait oracle.  The effect trace is returned alongside. -/
def attemptOnCaptureBot (R : Int) (guildID connectCode taskID : String)
    (pushErr : Bool) (ackEv : AckEvent) (st : RState) :
    Bool × RState × List CaptureEffect :=
  let p := IncrAndTestGuildTokenComboLock R false guildID connectCode st
  if p.1 then
    let tr := [CaptureEffect.subscribeTo (completeTask taskID),
               CaptureEffect.pushTask (tasksList connectCode)]
    if pushErr then (false, p.2, tr)
    else if waitForAck ackEv then (true, p.2, tr)
    else
      (false,
       BlacklistTokenForDuration R guildID connectCode
         UnresponsiveCaptureBlacklistDuration p.2,
       tr ++ [CaptureEffect.blacklistKey (guildTokenLock guildID connectCode)])
  else (false, p.2, [])

/-- Checks that every pushed task in an effect trace is preceded by a
subscription; the Bool argument records whether a subscribe was seen. -/
def pushPrecededBySub : List CaptureEffect → Bool → Bool
  | [], _ => true
  | CaptureEffect.subscribeTo _ :: rest, _ => pushPrecededBySub rest true
  | CaptureEffect.pushTask _ :: rest, seen => seen && pushPrecededBySub rest seen
  | CaptureEffect.blacklistKey _ :: rest, seen => pushPrecededBySub rest seen

/-- The tag of an inbound event job. -/
inductive MessageType
  | guildDelete
  | voiceStateUpdate
deriving DecidableEq, Repr

/-- A job on the shared job list: a type tag and the serialized payload. -/
structure Job where
  tag : MessageType
  payload : String
deriving DecidableEq, Repr

/-- Modelled from the spec: `PushDiscordMessage` (package
`internal/redis`, not under src/) pushes the tagged payload onto the
shared job list. -/
def PushDiscordMessage (jobs : List Job) (tag : MessageType) (payload : String) :
    List Job :=
  jobs ++ [{ tag := tag, payload := payload }]

/-- A voice-state-update gateway event (the fields the handler reads). -/
structure VoiceStateEvent where
  userID : String
  guildID : String
deriving DecidableEq, Repr

/-- The voice-state-update handler.  `marshal` is the JSON serializer
oracle (`none` = error, in which case the Go code logs and leaves `byt`
at its nil zero value); `anyActive` is the active-games predicate; a nil
event or the bot's own voice state is dropped. -/
def VoiceStateUpdateHandler (selfID : String) (anyActive : Bool)
    (marshal : VoiceStateEvent → Option String) (m : Option VoiceStateEvent)
    (jobs : List Job) : List Job :=
  match m with
  | none => jobs
  | some ev =>
    if ev.userID == selfID then jobs
    else if !anyActive then jobs
    else
      let byt := (marshal ev).getD ""
      PushDiscordMessage jobs MessageType.voiceStateUpdate byt

/-- A guild-delete gateway event (only its ID is read). -/
structure GuildDeleteEvent where
  id : String
deriving DecidableEq, Repr

/-- The guild-delete handler: marshal (logging on error, `byt` left at
its nil zero value) and push. -/
def GuildDeleteHandler (marshal : GuildDeleteEvent → Option String)
    (m : GuildDeleteEvent) (jobs : List Job) : List Job :=
  let byt := (marshal m).getD ""
  PushDiscordMessage jobs MessageType.guildDelete byt

/-- The error component of a redis pop, as the Go code distinguishes
them: the `redis.Nil` sentinel or any other error with its message. -/
inductive RedisErr
  | redisNil
  | other (msg : String)
deriving DecidableEq, Repr

/-- An HTTP response: status code and body. -/
structure HttpResponse where
  status : Nat
  body : String
deriving DecidableEq, Repr

/-- The request-job long-poll handler, as a function of the result of
`PopRawDiscordMessageTimeout` (package `internal/redis`, not under
src/): checked in order, `redis.Nil` → 202, any other error → 500,
empty message without error → 500 sentinel, otherwise 200 with the raw
payload. -/
def requestJobHandler (msg : String) (err : Option RedisErr) : HttpResponse :=
  if err = some RedisErr.redisNil then
    { status := 202, body := "\x7b\"status\": \"No jobs available\"\x7d" }
  else
    match err with
    | some (RedisErr.other e) =>
        { status := 500, body := "\x7b\"error\": \"" ++ e ++ "\"\x7d" }
    | _ =>
      if msg = "" then
        { status := 500,
          body := "\x7b\"error\": \"Nil job returned, despite no Redis errors\"\x7d" }
      else
        { status := 200, body := msg }

/-- Registry state: the distributed token locks held by this instance,
the local hashed-token → session map, and the shared guild token sets. -/
structure RegState where
  heldLocks : List String
  activeSessions : List (String × String)
  sets : List (String × List String)
deriving DecidableEq, Repr

/-- Redis SADD on the shared sets (idempotent). -/
def saddReg (st : RegState) (key member : String) : RegState :=
  match assoc key st.sets with
  | some ms =>
      if member ∈ ms then st
      else
        { st with
          sets := st.sets.map
            (fun p => if p.1 = key then (p.1, p.2 ++ [member]) else p) }
  | none => { st with sets := st.sets ++ [(key, [member])] }

/-- One iteration of the token-loading loop: skip a token whose hash is
already mapped; otherwise wait for and take the distributed token lock,
then create and open the session (`createOk`, `openOk` oracles; on
failure the Go code logs and continues, with the lock still held),
record the session, and SADD the hashed token into the set of every
guild the session already reports (`guilds` oracle). -/
def loadTokenStep (hash : String → String) (createOk openOk : String → Bool)
    (guilds : String → List String) (st : RegState) (botToken : String) :
    RegState :=
  let hashedToken := hash botToken
  if (assoc hashedToken st.activeSessions).isSome then st
  else
    let st1 : RegState := { st with heldLocks := st.heldLocks ++ [botToken] }
    if !createOk botToken then st1
    else if !openOk botToken then st1
    else
      let st2 : RegState :=
        { st1 with activeSessions := st1.activeSessions ++ [(hashedToken, botToken)] }
      (guilds botToken).foldl
        (fun s g => saddReg s (guildTokensKey g) hashedToken) st2

/-- Remove every space character, mirroring Go's
`strings.ReplaceAll(s, " ", "")`. -/
def stripSpaces (s : String) : String :=
  String.mk (s.data.filter (fun c => c ≠ ' '))

/-- Split a character list on commas, mirroring Go's
`strings.Split(s, ",")`; the accumulator holds the current field in
reverse. -/
def splitCommaAux : List Char → List Char → List String
  | [], acc => [String.mk acc.reverse]
  | c :: cs, acc =>
      if c = ',' then String.mk acc.reverse :: splitCommaAux cs []
      else splitCommaAux cs (c :: acc)

def splitComma (s : String) : List String :=
  splitCommaAux s.data []

/-- Startup token loading: strip all spaces from the `WORKER_BOT_TOKENS`
environment string, split on commas, and load each token in turn. -/
def loadTokensFromEnv (hash : String → String) (createOk openOk : String → Bool)
    (guilds : String → List String) (env : String) (st : RegState) : RegState :=
  let workerTokenStr := stripSpaces env
  if workerTokenStr = "" then st
  else (splitComma workerTokenStr).foldl
    (loadTokenStep hash createOk openOk guilds) st

/-- Shutdown: stop the shard manager, close each session (logging and
continuing on failure), and empty the local session map.  No token lock
is touched. -/
def Close (st : RegState) : RegState :=
  { st with activeSessions := [] }

/-- The C4 boundary scenario: two hashed identities, both with live
sessions, where the REST call fails on session "sa" and would succeed
on session "sb". -/
def c4st0 : GState :=
  { redis := emptyR,
    sets := [(guildTokensKey "g", ["a", "b"])],
    activeSessions := [("a", "sa"), ("b", "sb")] }

/-- The REST-call oracle of the C4 scenario: only session "sb"
succeeds. -/
def c4restOk : String → Bool := fun s => s == "sb"

def c4res : Bool × GState :=
  attemptOnSecondaryTokens 3 "g" "u" (some ["a", "b"]) 2 c4restOk c4st0

def c4gas : Option (String × String) × GState :=
  getAnySession 3 "g" ["a", "b"] 2 c4st0

/-- The C6 boundary scenario: two hashed identities listed for the
guild, of which only the second ("b") has a local session. -/
def c6st0 : GState :=
  { redis := emptyR,
    sets := [(guildTokensKey "g", ["a", "b"])],
    activeSessions := [("b", "sb")] }

def c9reg0 : RegState := { heldLocks := [], activeSessions := [], sets := [] }

/-- The C9 scenario: one configured token "abc" whose session creation
fails; the token lock has been taken before the failure. -/
def c9loaded : RegState :=
  loadTokensFromEnv (fun s => s) (fun _ => false) (fun _ => true) (fun _ => [])
    "abc" c9reg0

theorem assoc_setEntry_self (st : RState) (k : String) (e : Entry) :
    assoc k (setEntry st k e).entries = some e := by
  simp [setEntry, assoc]

theorem getLive_setEntry_self (st : RState) (k : String) (e : Entry) :
    getLive (setEntry st k e) k = if entryAlive st.now e then some e else none := by
  simp [getLive, setEntry, assoc]

theorem now_setEntry (st : RState) (k : String) (e : Entry) :
    (setEntry st k e).now = st.now := by
  simp [setEntry]

/-- Saturation invariant: a live admission counter whose value is at
least `R` and whose expiry is `T` causes every check of any schedule
staying inside the window to be denied, and neither its expiry nor its
liveness is disturbed. -/
theorem runOps_saturated (R : Int) (g h : String) (ops : List AdmOp) :
    ∀ (st : RState) (v : Int) (T : Nat),
      getLive st (guildTokenLock g h) = some ⟨v, some T⟩ →
      R ≤ v →
      st.now + totalAdvance ops < T →
      (runOps R g h ops st).1.all (fun b => b = false) = true ∧
      ∃ v2 : Int, R ≤ v2 ∧
        getLive (runOps R g h ops st).2 (guildTokenLock g h) = some ⟨v2, some T⟩ := by
  induction ops with
  | nil =>
    intro st v T hlive hR _
    exact ⟨rfl, v, hR, hlive⟩
  | cons op rest ih =>
    intro st v T hlive hR hwin
    cases op with
    | advanceOp t =>
      simp only [runOps, totalAdvance] at *
      have hlive2 : getLive (advance st t) (guildTokenLock g h) = some ⟨v, some T⟩ := by
        simp only [getLive, advance] at hlive ⊢
        cases hq : assoc (guildTokenLock g h) st.entries with
        | none => simp [hq] at hlive
        | some e =>
          simp [hq] at hlive ⊢
          rcases hlive with ⟨ha, he⟩
          subst he
          simp [entryAlive]
          omega
      exact ih (advance st t) v T hlive2 hR (by simp [advance]; omega)
    | checkOp =>
      simp only [runOps, totalAdvance] at *
      have hstep : IncrAndTestGuildTokenComboLock R false g h st =
          (false, setEntry st (guildTokenLock g h) ⟨v + 1, some T⟩) := by
        simp only [IncrAndTestGuildTokenComboLock, rincr, hlive]
        have : ¬ (v + 1 < R) := by omega
        simp [this]
      rw [hstep]
      have hlive2 : getLive (setEntry st (guildTokenLock g h) ⟨v + 1, some T⟩)
          (guildTokenLock g h) = some ⟨v + 1, some T⟩ := by
        rw [getLive_setEntry_self]
        have : entryAlive st.now ⟨v + 1, some T⟩ = true := by
          simp [entryAlive]; omega
        simp [setEntry, this]
      obtain ⟨hall, v2, hv2, hfin⟩ :=
        ih (setEntry st (guildTokenLock g h) ⟨v + 1, some T⟩) (v + 1) T
          (by rw [hlive2]) (by omega) (by rw [now_setEntry]; omega)
      exact ⟨by simpa using hall, v2, hv2, hfin⟩


/-- C1 counterexample: at R = 3 and W = 5s on a fresh store, four
consecutive admission checks for the same (guild, identity) return
true, true, false, false — not the claimed true, true, true, false: the
third call already sees post-increment count 3 ≥ R and is denied. -/
theorem C1_four_calls_counterexample :
    [adm3s1.1, adm3s2.1, adm3s3.1, adm3s4.1] = [true, true, false, false] ∧
    [true, true, false, false] ≠ [true, true, true, false] := by decide

/-- C1 (amended): a call is denied exactly when the post-increment
count n satisfies n ≥ R; hence at R = 3, W = 5s four consecutive calls
return true, true, false, false, and a fifth call after the 5-second
window has expired returns true. -/
theorem C1_denied_iff_count_ge_capacity :
    (∀ (R : Int) (g h : String) (st : RState),
      (IncrAndTestGuildTokenComboLock R false g h st).1 = false ↔
        R ≤ (rincr st (guildTokenLock g h)).1) ∧
    [adm3s1.1, adm3s2.1, adm3s3.1, adm3s4.1, adm3s5.1] =
      [true, true, false, false, true] := by
  constructor
  · intro R g h st
    cases hp : rincr st (guildTokenLock g h) with
    | mk i st1 =>
      simp [IncrAndTestGuildTokenComboLock, hp]
      split <;> simp_all
  · decide

/-- C2: after `BlacklistTokenForDuration` writes capacity R with TTL d,
every admission check of any schedule of checks and delays that stays
strictly inside the d-second window is denied, and the blacklisted
key's expiry instant is never extended or reset by those checks. -/
theorem C2_blacklist_denies_until_expiry (R : Int) (g h : String) (d : Nat)
    (st : RState) (ops : List AdmOp) (hwin : totalAdvance ops < d) :
    (runOps R g h ops (BlacklistTokenForDuration R g h d st)).1.all
        (fun b => b = false) = true ∧
    liveExpiry (runOps R g h ops (BlacklistTokenForDuration R g h d st)).2
        (guildTokenLock g h) = some (st.now + d) := by
  have hlive : getLive (BlacklistTokenForDuration R g h d st) (guildTokenLock g h) =
      some ⟨R, some (st.now + d)⟩ := by
    unfold BlacklistTokenForDuration rset
    rw [getLive_setEntry_self]
    have : entryAlive st.now ⟨R, some (st.now + d)⟩ = true := by
      simp [entryAlive]; omega
    simp [setEntry, this]
  have hnow : (BlacklistTokenForDuration R g h d st).now = st.now := by
    simp [BlacklistTokenForDuration, rset, setEntry]
  obtain ⟨hall, v2, hv2, hfin⟩ :=
    runOps_saturated R g h ops (BlacklistTokenForDuration R g h d st) R (st.now + d)
      hlive le_rfl (by rw [hnow]; omega)
  exact ⟨hall, by simp [liveExpiry, hfin]⟩

theorem C2_blacklist_denies_until_expiry_witness :
    totalAdvance [AdmOp.checkOp, AdmOp.advanceOp 2, AdmOp.checkOp] < 5 ∧
    (runOps 3 "g" "h" [AdmOp.checkOp, AdmOp.advanceOp 2, AdmOp.checkOp]
        (BlacklistTokenForDuration 3 "g" "h" 5 emptyR)).1.all
        (fun b => b = false) = true :=
  ⟨by decide, (C2_blacklist_denies_until_expiry 3 "g" "h" 5 emptyR
    [AdmOp.checkOp, AdmOp.advanceOp 2, AdmOp.checkOp] (by decide)).1⟩

/-- C3 counterexample: at R = 3 on a fresh store the first grant sets
the admission key's expiry to instant 5; two seconds later a second,
also granted, check resets the expiry to instant 7 — a granted call
within the window does not leave the TTL unchanged. -/
theorem C3_second_grant_changes_ttl_counterexample :
    adm3s1.1 = true ∧
    liveExpiry adm3s1.2 (guildTokenLock "g" "h") = some 5 ∧
    (adm3 (advance adm3s1.2 2)).1 = true ∧
    liveExpiry (adm3 (advance adm3s1.2 2)).2 (guildTokenLock "g" "h") = some 7 ∧
    (some 7 : Option Nat) ≠ some 5 := by decide

/-- C3 (amended): every granted admission check — not only the first of
a window — sets the (guild, identity) key's TTL to the full window
W = 5s, i.e. its expiry becomes now + 5. -/
theorem C3_every_grant_sets_ttl (R : Int) (g h : String) (st : RState)
    (hgrant : (IncrAndTestGuildTokenComboLock R false g h st).1 = true) :
    liveExpiry (IncrAndTestGuildTokenComboLock R false g h st).2
      (guildTokenLock g h) = some (st.now + 5) := by
  unfold IncrAndTestGuildTokenComboLock at *
  simp only [Bool.false_eq_true, if_false] at hgrant ⊢
  cases hl : getLive st (guildTokenLock g h) with
  | some e =>
    simp only [rincr, hl] at hgrant ⊢
    by_cases hlt : e.value + 1 < R
    · rw [if_pos hlt]
      have halive : entryAlive st.now ⟨e.value + 1, e.expiry⟩ = true := by
        simp only [getLive] at hl
        cases hq : assoc (guildTokenLock g h) st.entries with
        | none => simp [hq] at hl
        | some e2 =>
          simp [hq] at hl
          rcases hl with ⟨ha, he⟩
          subst he
          simpa [entryAlive] using ha
      rw [show (rexpire (setEntry st (guildTokenLock g h) ⟨e.value + 1, e.expiry⟩)
            (guildTokenLock g h) 5) =
            setEntry (setEntry st (guildTokenLock g h) ⟨e.value + 1, e.expiry⟩)
            (guildTokenLock g h) ⟨e.value + 1, some (st.now + 5)⟩ from ?_]
      · rw [liveExpiry, getLive_setEntry_self]
        simp [now_setEntry, entryAlive]
      · rw [rexpire, getLive_setEntry_self]
        simp [halive, now_setEntry]
    · rw [if_neg hlt] at hgrant
      simp at hgrant
  | none =>
    simp only [rincr, hl] at hgrant ⊢
    by_cases hlt : (1 : Int) < R
    · rw [if_pos hlt]
      rw [show (rexpire (setEntry st (guildTokenLock g h) ⟨1, none⟩)
            (guildTokenLock g h) 5) =
            setEntry (setEntry st (guildTokenLock g h) ⟨1, none⟩)
            (guildTokenLock g h) ⟨1, some (st.now + 5)⟩ from ?_]
      · rw [liveExpiry, getLive_setEntry_self]
        simp [now_setEntry, entryAlive]
      · rw [rexpire, getLive_setEntry_self]
        simp [entryAlive, now_setEntry]
    · rw [if_neg hlt] at hgrant
      simp at hgrant

theorem C3_every_grant_sets_ttl_witness :
    (IncrAndTestGuildTokenComboLock 3 false "g" "h" emptyR).1 = true ∧
    liveExpiry (IncrAndTestGuildTokenComboLock 3 false "g" "h" emptyR).2
      (guildTokenLock "g" "h") = some (emptyR.now + 5) :=
  ⟨by decide, C3_every_grant_sets_ttl 3 "g" "h" emptyR (by decide)⟩

/-- C10: when the INCR call errors, the Go code only logs, leaving the
count at its zero value 0; with a positive capacity R the check is
granted and the EXPIRE is still attempted — the admission controller
fails open on store errors. -/
theorem C10_admission_fails_open (R : Int) (g h : String) (st : RState)
    (hR : 0 < R) :
    IncrAndTestGuildTokenComboLock R true g h st =
      (true, rexpire st (guildTokenLock g h) 5) := by
  simp [IncrAndTestGuildTokenComboLock, hR]

theorem C10_admission_fails_open_witness :
    (0 : Int) < 3 ∧
    IncrAndTestGuildTokenComboLock 3 true "g" "h" emptyR =
      (true, rexpire emptyR (guildTokenLock "g" "h") 5) :=
  ⟨by decide, C10_admission_fails_open 3 "g" "h" emptyR (by decide)⟩


/-- C4 counterexample: both listed identities have live sessions, the
REST call fails on the first one's session, would succeed on the
second's — yet the secondary rung reports failure and has never even
admission-checked the second identity (its counter is absent): after
the first REST failure the walk is abandoned. -/
theorem C4_rest_failure_counterexample :
    c4res.1 = false ∧
    liveValue c4res.2.redis (guildTokenLock "g" "b") = none ∧
    c4restOk "sb" = true := by decide

/-- C4 (amended): if the mute/deaf REST call on the admitted secondary
session fails, the dispatcher logs the failure and returns false,
abandoning the remaining secondaries and dropping to the capture rung:
the secondary rung makes at most one REST attempt. -/
theorem C4_rest_failure_abandons_rung (R : Int) (g u : String)
    (toks : List String) (limit : Int) (restOk : String → Bool)
    (st st1 : GState) (sess hToken : String)
    (hlimit : 0 < limit)
    (hget : getAnySession R g toks limit st = (some (sess, hToken), st1))
    (hrest : restOk sess = false) :
    attemptOnSecondaryTokens R g u (some toks) limit restOk st = (false, st1) := by
  simp [attemptOnSecondaryTokens, hlimit, hget, hrest]

theorem C4_rest_failure_abandons_rung_witness :
    attemptOnSecondaryTokens 3 "g" "u" (some ["a", "b"]) 2 c4restOk c4st0 =
      (false, c4gas.2) :=
  C4_rest_failure_abandons_rung 3 "g" "u" ["a", "b"] 2 c4restOk c4st0 c4gas.2
    "sa" "a" (by decide) (by decide) (by decide)

/-- C5: in every run of the capture rung any pushed task is preceded by
the subscription to the task's completion topic, and the ack wait
returns true exactly when the first event is a message with payload
"true" (false on timeout or any other payload). -/
theorem C5_subscribe_before_push_and_ack_semantics :
    (∀ (R : Int) (g cc tid : String) (pushErr : Bool) (ev : AckEvent) (st : RState),
      pushPrecededBySub (attemptOnCaptureBot R g cc tid pushErr ev st).2.2 false = true) ∧
    (∀ ev : AckEvent, waitForAck ev = true ↔ ev = AckEvent.msg "true") := by
  constructor
  · intro R g cc tid pushErr ev st
    unfold attemptOnCaptureBot
    by_cases hadm : (IncrAndTestGuildTokenComboLock R false g cc st).1 = true <;>
      split_ifs <;> simp [hadm, pushPrecededBySub]
  · intro ev
    cases ev with
    | timeout => simp [waitForAck]
    | msg p => simp [waitForAck]

/-- C6: an admitted hashed identity with no local session is removed
from the guild's shared token set and the walk continues with the next
listed identity; in the boundary scenario with identities "a", "b" of
which only "b" has a session, the walk returns "b"'s session and the
guild set afterwards holds only "b". -/
theorem C6_stale_removed_walk_continues :
    (∀ (R : Int) (g : String) (limit i : Int) (hToken : String)
        (rest : List String) (st : GState),
      (i == limit) = false →
      (IncrAndTestGuildTokenComboLock R false g hToken st.redis).1 = true →
      assoc hToken st.activeSessions = none →
      getAnySessionAux R g limit i (hToken :: rest) st =
        getAnySessionAux R g limit (i + 1) rest
          (srem { st with redis := (IncrAndTestGuildTokenComboLock R false g hToken st.redis).2 }
            (guildTokensKey g) hToken)) ∧
    (getAnySession 3 "g" ["a", "b"] 2 c6st0).1 = some ("sb", "b") ∧
    smembers (getAnySession 3 "g" ["a", "b"] 2 c6st0).2 (guildTokensKey "g") = ["b"] := by
  refine ⟨?_, by decide, by decide⟩
  intro R g limit i hToken rest st hi hadm hsess
  simp [getAnySessionAux, hi, hadm, hsess]

theorem C6_stale_removed_walk_continues_witness :
    getAnySessionAux 3 "g" 2 0 ["a", "b"] c6st0 =
      getAnySessionAux 3 "g" 2 1 ["b"]
        (srem { c6st0 with
            redis := (IncrAndTestGuildTokenComboLock 3 false "g" "a" c6st0.redis).2 }
          (guildTokensKey "g") "a") :=
  C6_stale_removed_walk_continues.1 3 "g" 2 0 "a" ["b"] c6st0
    (by decide) (by decide) (by decide)

/-- C7 counterexample: when JSON serialization fails, the
voice-state-update handler still pushes a job (with an empty payload)
onto the job list — the event is not dropped. -/
theorem C7_marshal_error_still_pushes_counterexample :
    VoiceStateUpdateHandler "self" true (fun _ => none)
        (some { userID := "u", guildID := "g" }) [] =
      [{ tag := MessageType.voiceStateUpdate, payload := "" }] ∧
    [{ tag := MessageType.voiceStateUpdate, payload := "" }] ≠ ([] : List Job) := by
  decide

/-- C7 (amended): when JSON serialization of the event fails, the
handlers log the error but do not return: the event is still pushed
onto the shared job list, with its payload left at the nil zero value
(the empty byte string). -/
theorem C7_marshal_error_pushes_empty_payload :
    (∀ (selfID : String) (marshal : VoiceStateEvent → Option String)
        (ev : VoiceStateEvent) (jobs : List Job),
      marshal ev = none → (ev.userID == selfID) = false →
      VoiceStateUpdateHandler selfID true marshal (some ev) jobs =
        jobs ++ [{ tag := MessageType.voiceStateUpdate, payload := "" }]) ∧
    (∀ (marshal : GuildDeleteEvent → Option String) (m : GuildDeleteEvent)
        (jobs : List Job),
      marshal m = none →
      GuildDeleteHandler marshal m jobs =
        jobs ++ [{ tag := MessageType.guildDelete, payload := "" }]) := by
  constructor
  · intro selfID marshal ev jobs hm hself
    simp [VoiceStateUpdateHandler, PushDiscordMessage, hm, hself]
  · intro marshal m jobs hm
    simp [GuildDeleteHandler, PushDiscordMessage, hm]

theorem C7_marshal_error_pushes_empty_payload_witness :
    VoiceStateUpdateHandler "self" true (fun _ => none)
        (some { userID := "u", guildID := "g" }) [] =
      [] ++ [{ tag := MessageType.voiceStateUpdate, payload := "" }] :=
  C7_marshal_error_pushes_empty_payload.1 "self" (fun _ => none)
    { userID := "u", guildID := "g" } [] rfl (by decide)

/-- C8 counterexample: the 202 body written by the code contains a
space after the colon, so it is not byte-for-byte the claimed body. -/
theorem C8_empty_pop_body_counterexample :
    requestJobHandler "" (some RedisErr.redisNil) =
      { status := 202, body := "\x7b\"status\": \"No jobs available\"\x7d" } ∧
    "\x7b\"status\": \"No jobs available\"\x7d" ≠
      "\x7b\"status\":\"No jobs available\"\x7d" := by
  decide

/-- C8 (amended): the request-job handler maps an empty pop (redis.Nil)
to HTTP 202 with the exact body containing a space after the colon, any
other store error to HTTP 500 with an error body, an empty message
without error to the HTTP 500 sentinel, and a value to HTTP 200 with
the raw payload as body. -/
theorem C8_pop_outcome_mapping :
    (∀ msg : String, requestJobHandler msg (some RedisErr.redisNil) =
      { status := 202, body := "\x7b\"status\": \"No jobs available\"\x7d" }) ∧
    (∀ msg e : String, requestJobHandler msg (some (RedisErr.other e)) =
      { status := 500, body := "\x7b\"error\": \"" ++ e ++ "\"\x7d" }) ∧
    requestJobHandler "" none =
      { status := 500,
        body := "\x7b\"error\": \"Nil job returned, despite no Redis errors\"\x7d" } ∧
    (∀ msg : String, msg ≠ "" →
      requestJobHandler msg none = { status := 200, body := msg }) := by
  refine ⟨fun msg => by simp [requestJobHandler],
          fun msg e => by simp [requestJobHandler],
          by simp [requestJobHandler],
          fun msg hmsg => by simp [requestJobHandler, hmsg]⟩

theorem C8_pop_outcome_mapping_witness :
    requestJobHandler "job" none = { status := 200, body := "job" } :=
  C8_pop_outcome_mapping.2.2.2 "job" (by decide)

/-- C9 counterexample: for the configured token "abc" whose session
creation fails, the token lock is taken and never released; after
`Close` has emptied the session map the lock is still held. -/
theorem C9_lock_survives_close_counterexample :
    (Close c9loaded).heldLocks = ["abc"] ∧
    (Close c9loaded).activeSessions = [] ∧
    ["abc"] ≠ ([] : List String) := by decide

theorem heldLocks_saddReg (s : RegState) (k m : String) :
    (saddReg s k m).heldLocks = s.heldLocks := by
  unfold saddReg
  cases h : assoc k s.sets with
  | some ms => by_cases hm : m ∈ ms <;> simp [hm]
  | none => rfl

theorem heldLocks_foldl_sadd (gs : List String) (hToken : String) :
    ∀ s : RegState,
      ((gs.foldl (fun s g => saddReg s (guildTokensKey g) hToken) s).heldLocks
        = s.heldLocks) := by
  induction gs with
  | nil => intro s; rfl
  | cons g rest ih =>
    intro s
    rw [List.foldl_cons, ih (saddReg s (guildTokensKey g) hToken), heldLocks_saddReg]

theorem mem_heldLocks_loadTokenStep (hash : String → String)
    (createOk openOk : String → Bool) (guilds : String → List String)
    (st : RegState) (tok l : String) (hl : l ∈ st.heldLocks) :
    l ∈ (loadTokenStep hash createOk openOk guilds st tok).heldLocks := by
  unfold loadTokenStep
  by_cases h1 : (assoc (hash tok) st.activeSessions).isSome
  · simp [h1, hl]
  · by_cases h2 : createOk tok
    · by_cases h3 : openOk tok
      · simp [h1, h2, h3, heldLocks_foldl_sadd, hl]
      · simp [h1, h2, h3, hl]
    · simp [h1, h2, hl]

theorem mem_heldLocks_foldl_load (hash : String → String)
    (createOk openOk : String → Bool) (guilds : String → List String)
    (toks : List String) :
    ∀ (st : RegState) (l : String), l ∈ st.heldLocks →
      l ∈ (toks.foldl (loadTokenStep hash createOk openOk guilds) st).heldLocks := by
  induction toks with
  | nil => intro st l hl; exact hl
  | cons t rest ih =>
    intro st l hl
    rw [List.foldl_cons]
    exact ih _ l (mem_heldLocks_loadTokenStep hash createOk openOk guilds st t l hl)

/-- C9 (amended): no token lock taken by this instance is ever
released by it: `Close` leaves the held-lock set untouched (it only
closes sessions and empties the local map), and the startup loader only
adds locks, in particular keeping the lock of any identity whose
session creation or open failed. -/
theorem C9_locks_never_released :
    (∀ st : RegState, (Close st).heldLocks = st.heldLocks) ∧
    (∀ (hash : String → String) (createOk openOk : String → Bool)
        (guilds : String → List String) (env : String) (st : RegState)
        (l : String), l ∈ st.heldLocks →
      l ∈ (loadTokensFromEnv hash createOk openOk guilds env st).heldLocks) := by
  refine ⟨fun st => rfl, ?_⟩
  intro hash createOk openOk guilds env st l hl
  unfold loadTokensFromEnv
  by_cases he : stripSpaces env = ""
  · simp [he, hl]
  · simp only [he, if_false]
    exact mem_heldLocks_foldl_load hash createOk openOk guilds _ st l hl

theorem C9_locks_never_released_witness :
    "x" ∈ (loadTokensFromEnv (fun s => s) (fun _ => true) (fun _ => true)
      (fun _ => ["gg"]) "abc, def"
      { heldLocks := ["x"], activeSessions := [], sets := [] }).heldLocks :=
  C9_locks_never_released.2 (fun s => s) (fun _ => true) (fun _ => true)
    (fun _ => ["gg"]) "abc, def"
    { heldLocks := ["x"], activeSessions := [], sets := [] } "x" (by decide)

end Galactus
